import Mathlib

/-
Verification development for the x1-bridge firmware core.

Shallow embedding of the stateful protocol engines found in
src/ble.cpp, src/bluetooth.cpp and src/config.cpp:
  - the secure OTA update state machine (onOtaStart / onOtaChunk / onOtaFinish),
  - the Bluetooth-Classic scan / connect bridge state,
  - the BLE session lifecycle (connect / disconnect, subscription reset),
  - the connected-idle-timeout sweep,
  - the inbound serial framer,
  - the configuration write handlers (target address, idle timeouts).

Bytes are modelled as Nat (byte values are below 256 where the code relies
on it).  External collaborators (flash partition API, NVS store, mbedtls)
are modelled at their interface boundary; successful flash operations are
assumed, since the engines treat them as opaque success/failure sources and
the claims under study concern the engine logic.
-/

/-! ## Little-endian 32-bit decoding

The handlers decode four raw bytes with shifts and bitwise or, exactly as
`(data[3] << 24) | (data[2] << 16) | (data[1] << 8) | data[0]` in ble.cpp. -/

def le32 (b0 b1 b2 b3 : Nat) : Nat :=
  (b3 <<< 24) ||| (b2 <<< 16) ||| (b1 <<< 8) ||| b0

/-! ## Secure OTA engine (src/ble.cpp, createOtaUpdateCharacteristic) -/

/-- Observable effects emitted by the OTA handlers: the status notification
(`notify(false)` / `notify(true)`), `esp_ota_abort`, `esp_ota_set_boot_partition`
and the deferred `gracefulRestart`. -/
inductive OtaEvent where
  | notifyFail : OtaEvent
  | notifyOk : OtaEvent
  | abortFlash : OtaEvent
  | bootSwitch : Nat → OtaEvent
  | restart : OtaEvent
deriving DecidableEq, Repr

/-- Mutable fields of the OTA callbacks object in ble.cpp: `image_size`,
`bytes_written`, the sha256 context and the selected partition.  The code
uses `image_size == 0` as the no-active-session sentinel. -/
structure OtaState where
  image_size : Nat
  bytes_written : Nat
  sha_ctx : List Nat
  ota_partition : Option Nat
deriving DecidableEq, Repr

def otaInit : OtaState :=
  { image_size := 0, bytes_written := 0, sha_ctx := [], ota_partition := none }

/-- Modelled from the spec: the flash partition selection
(`esp_ota_get_next_update_partition`) is an external ESP-IDF collaborator not
under src/; the spec says Start selects the inactive flash partition, which is
modelled as a fixed available partition. -/
def espOtaGetNextUpdatePartition : Option Nat := some 0

/-- Modelled from the spec: mbedtls SHA-256 is an external collaborator not
under src/; the spec describes the digest accumulator as a running
cryptographic hash over all chunk bytes in order.  It is modelled as the
ideal collision-free accumulator, the byte stream itself. -/
def otaDigestUpdate (ctx data : List Nat) : List Nat := ctx ++ data

/-- Modelled from the spec: mbedtls SHA-256 finalization, the ideal digest of
the accumulated bytes. -/
def otaDigestFinish (ctx : List Nat) : List Nat := ctx

/-- Modelled from the spec: the unique valid ECDSA signature over a digest
under the build-embedded public key.  ECDSA signing and verification live in
mbedtls, outside src/; the scheme is modelled as ideal and deterministic so
that verification accepts exactly one signature per digest. -/
def otaGenuineSignature (hash : List Nat) : List Nat := hash

/-- Modelled from the spec: `mbedtls_ecdsa_read_signature` against the
build-embedded public key, accepting exactly the genuine signature for the
digest.  Curve load and public-key parse are modelled as succeeding, since
the embedded key is well-formed in any build that creates the characteristic. -/
def otaSignatureOk (hash sig : List Nat) : Bool := sig == otaGenuineSignature hash

/-- The `onOtaStart` handler (ble.cpp:874).  Rejects a payload that is not
exactly format byte + 4 size bytes, or a wrong format byte.  Otherwise selects
the next update partition, decodes the little-endian size, opens the partition
(`esp_ota_begin`, modelled as succeeding), zeroes `bytes_written` and resets
the digest accumulator.  Note that no check for an already-active session is
performed. -/
def onOtaStart (st : OtaState) (data : List Nat) : OtaState × List OtaEvent :=
  if data.length ≠ 5 then (st, [])
  else if data.getD 0 0 ≠ 1 then (st, [])
  else
    match espOtaGetNextUpdatePartition with
    | none => (st, [])
    | some p =>
      let sz := le32 (data.getD 1 0) (data.getD 2 0) (data.getD 3 0) (data.getD 4 0)
      ({ image_size := sz, bytes_written := 0, sha_ctx := [], ota_partition := some p }, [])

/-- The `onOtaChunk` handler (ble.cpp:908).  Ignores chunks with no active
session (`image_size == 0`) and empty chunks.  A chunk that would overflow the
declared size notifies failure, kills the session and aborts the flash handle.
Otherwise the bytes are written (`esp_ota_write`, modelled as succeeding),
folded into the digest, and `bytes_written` advances. -/
def onOtaChunk (st : OtaState) (data : List Nat) : OtaState × List OtaEvent :=
  if st.image_size = 0 then (st, [])
  else if data.length = 0 then (st, [])
  else if st.image_size < st.bytes_written + data.length then
    ({ st with image_size := 0, sha_ctx := [] }, [OtaEvent.notifyFail, OtaEvent.abortFlash])
  else
    ({ st with sha_ctx := otaDigestUpdate st.sha_ctx data,
               bytes_written := st.bytes_written + data.length }, [])

/-- The `onOtaFinish` handler (ble.cpp:944).  Ignored with no active session;
a size mismatch aborts the session; otherwise the digest is finalized and the
signature verified, failure aborting the session.  On success the partition
write is committed (`esp_ota_end`), the boot partition switched, success
notified and a graceful restart scheduled. -/
def onOtaFinish (st : OtaState) (data : List Nat) : OtaState × List OtaEvent :=
  if st.image_size = 0 then (st, [])
  else if st.bytes_written ≠ st.image_size then
    ({ st with image_size := 0, sha_ctx := [] }, [OtaEvent.notifyFail, OtaEvent.abortFlash])
  else
    let hash := otaDigestFinish st.sha_ctx
    if otaSignatureOk hash data then
      (st, [OtaEvent.bootSwitch (st.ota_partition.getD 0), OtaEvent.notifyOk, OtaEvent.restart])
    else
      ({ st with image_size := 0 }, [OtaEvent.notifyFail, OtaEvent.abortFlash])

/-- The OTA characteristic `onWrite` dispatcher (ble.cpp:831): writes shorter
than one byte are ignored, otherwise the leading tag byte selects start (1),
chunk (2) or finish (3); unknown tags are logged and ignored. -/
def otaWrite (st : OtaState) (data : List Nat) : OtaState × List OtaEvent :=
  match data with
  | [] => (st, [])
  | tag :: rest =>
    if tag = 1 then onOtaStart st rest
    else if tag = 2 then onOtaChunk st rest
    else if tag = 3 then onOtaFinish st rest
    else (st, [])

/-- Runs a sequence of characteristic writes through the OTA engine,
collecting the emitted events in order. -/
def runOta (st : OtaState) : List (List Nat) → OtaState × List OtaEvent
  | [] => (st, [])
  | d :: rest =>
    let r1 := otaWrite st d
    let r2 := runOta r1.1 rest
    (r2.1, r1.2 ++ r2.2)

/-- Wire encoding of a Start message: tag 1, format byte 1, four size bytes
little-endian. -/
def startMsg (b0 b1 b2 b3 : Nat) : List Nat := [1, 1, b0, b1, b2, b3]

/-- Wire encoding of a Chunk message: tag 2 followed by the image bytes. -/
def chunkMsg (c : List Nat) : List Nat := 2 :: c

/-- Wire encoding of a Finish message: tag 3 followed by the signature bytes. -/
def finishMsg (sig : List Nat) : List Nat := 3 :: sig

/-- Full OTA byte stream: one Start, a list of chunks, one Finish. -/
def otaStream (b0 b1 b2 b3 : Nat) (cs : List (List Nat)) (sig : List Nat) : List (List Nat) :=
  startMsg b0 b1 b2 b3 :: (cs.map chunkMsg ++ [finishMsg sig])

/-- Events emitted by running a stream from the idle engine. -/
def otaRunEvents (msgs : List (List Nat)) : List OtaEvent := (runOta otaInit msgs).2

/-- Total number of image bytes carried by a list of chunks. -/
def sumLen (cs : List (List Nat)) : Nat := (cs.map List.length).sum

/-- Flips bit k of the byte at position i (out-of-range positions are left
untouched by List.set). -/
def flipBit (l : List Nat) (i k : Nat) : List Nat :=
  l.set i ((l.getD i 0) ^^^ (1 <<< k))

/-! ## Bluetooth Classic bridge (src/bluetooth.cpp) -/

/-- Global state of bluetooth.cpp: the `can_scan` flag and whether the scan /
connect worker tasks are live (`scan_task` / `connect_task` handles being
non-null). -/
structure BtState where
  can_scan : Bool
  scan_task : Bool
  connect_task : Bool
deriving DecidableEq, Repr

def btInit : BtState := { can_scan := true, scan_task := false, connect_task := false }

/-- `Bluetooth::cancelScan` (bluetooth.cpp:109): a no-op without a live scan
task, otherwise stops discovery and clears the task handle. -/
def btCancelScan (st : BtState) : BtState :=
  if st.scan_task then { st with scan_task := false } else st

/-- `Bluetooth::scan` (bluetooth.cpp:42): fails if `can_scan` is false;
otherwise cancels any live scan, starts asynchronous discovery (the transport
accepting it is modelled as succeeding) and spawns the scan-completion task.
Returns whether the scan started. -/
def btScan (st : BtState) : BtState × Bool :=
  if st.can_scan = false then (st, false)
  else
    let st1 := btCancelScan st
    ({ st1 with scan_task := true }, true)

/-- `Bluetooth::connect` (bluetooth.cpp:121): permanently clears `can_scan`,
cancels any live scan, notifies and clears any live connect task, then spawns
a fresh connect task. -/
def btConnect (st : BtState) : BtState :=
  let st1 := { st with can_scan := false }
  let st2 := btCancelScan st1
  let st3 := if st2.connect_task then { st2 with connect_task := false } else st2
  { st3 with connect_task := true }

/-- `Bluetooth::disconnect` (bluetooth.cpp:193): notifies and clears any live
connect task. -/
def btDisconnect (st : BtState) : BtState :=
  if st.connect_task then { st with connect_task := false } else st

/-- The bridge operations a caller can invoke. -/
inductive BtOp where
  | scan : BtOp
  | connect : BtOp
  | cancel : BtOp
  | disconnect : BtOp
deriving DecidableEq, Repr

def btStep (st : BtState) : BtOp → BtState
  | BtOp.scan => (btScan st).1
  | BtOp.connect => btConnect st
  | BtOp.cancel => btCancelScan st
  | BtOp.disconnect => btDisconnect st

def btRun (st : BtState) : List BtOp → BtState
  | [] => st
  | op :: rest => btRun (btStep st op) rest

/-! ## BLE session lifecycle (src/ble.cpp, MyBleServerCallbacks) -/

/-- One BLE2902 client-configuration descriptor: the per-characteristic
notification / indication enable bits. -/
structure ClientConfigDesc where
  notifications : Bool
  indications : Bool
deriving DecidableEq, Repr

/-- The BLE server session state: the optional connected client address, the
registered client-configuration descriptors and whether advertising runs. -/
structure BleSrvState where
  connected_client : Option (List Nat)
  client_config_descriptors : List ClientConfigDesc
  advertising : Bool
deriving DecidableEq, Repr

/-- `onConnect` (ble.cpp:72): asserts no client is connected, records the peer
address and stamps the activity clock.  The transport stops advertising once
a client is connected. -/
def srvOnConnect (st : BleSrvState) (addr : List Nat) : BleSrvState :=
  { st with connected_client := some addr, advertising := false }

/-- The descriptor-reset loop in `onDisconnect` (ble.cpp:89): every registered
descriptor has notifications and indications forced off. -/
def descOff : ClientConfigDesc := { notifications := false, indications := false }

def srvClearSubscriptions (st : BleSrvState) : BleSrvState :=
  { st with client_config_descriptors := st.client_config_descriptors.map (fun _ => descOff) }

/-- `onDisconnect` (ble.cpp:85), in source order: clear the peer identity,
reset every subscription descriptor, then restart advertising. -/
def srvOnDisconnect (st : BleSrvState) : BleSrvState :=
  let st1 := { st with connected_client := none }
  let st2 := srvClearSubscriptions st1
  { st2 with advertising := true }

inductive SrvEv where
  | connect : List Nat → SrvEv
  | disconnect : SrvEv

/-- One transport event.  A connect while a client is already present would
fire the assert in `onConnect`; the transport prevents it (advertising is off
while connected), so the model leaves the state unchanged there. -/
def srvStep (st : BleSrvState) : SrvEv → BleSrvState
  | SrvEv.connect addr =>
    if st.connected_client.isSome then st else srvOnConnect st addr
  | SrvEv.disconnect => srvOnDisconnect st

def srvRun (st : BleSrvState) : List SrvEv → BleSrvState
  | [] => st
  | ev :: rest => srvRun (srvStep st ev) rest

def srvInit (descs : List ClientConfigDesc) : BleSrvState :=
  { connected_client := none, client_config_descriptors := descs, advertising := true }

/-- Number of active sessions, for the single-session invariant. -/
def sessionCount (st : BleSrvState) : Nat :=
  if st.connected_client.isSome then 1 else 0

/-! ## Idle-timeout sweep (src/ble.cpp, bleTimeout task) -/

/-- The connected-session view of the sweep: whether a client is connected and
the `last_activity_time` stamp. -/
structure SessionClock where
  connected : Bool
  last_activity_time : Nat
deriving DecidableEq, Repr

/-- The custom GATTS handler (ble.cpp:144): any authenticated read, write,
executed write or notification confirmation refreshes the activity stamp. -/
def activityEvent (now : Nat) (st : SessionClock) : SessionClock :=
  { st with last_activity_time := now }

/-- One iteration of the bleTimeout sweep (ble.cpp:151) for the connected
case: compute the idle time, and when it reaches the connected idle timeout,
issue `esp_ble_gap_disconnect` (the returned flag) and reset the activity
clock to now. -/
def sweepStep (timeout now : Nat) (st : SessionClock) : SessionClock × Bool :=
  if st.connected then
    if timeout ≤ now - st.last_activity_time then
      ({ st with last_activity_time := now }, true)
    else (st, false)
  else (st, false)

/-- Runs the sweep at each listed time, counting issued disconnects. -/
def runSweeps (timeout : Nat) (st : SessionClock) : List Nat → SessionClock × Nat
  | [] => (st, 0)
  | t :: rest =>
    let r1 := sweepStep timeout t st
    let r2 := runSweeps timeout r1.1 rest
    (r2.1, (if r1.2 then 1 else 0) + r2.2)

/-! ## Inbound framer (src/ble.cpp, Bluetooth data callback, lines 312-339) -/

/-- The inbound framer: each byte is appended to the buffer; when the byte is
the terminator 0x0A the whole buffer (terminator included) is emitted as one
frame and the buffer cleared.  Returns the buffer left after the call and the
frames emitted, in order. -/
def feedBytes (buf : List Nat) : List Nat → List Nat × List (List Nat)
  | [] => (buf, [])
  | b :: rest =>
    let buf2 := buf ++ [b]
    if b = 10 then
      let r := feedBytes [] rest
      (r.1, buf2 :: r.2)
    else
      feedBytes buf2 rest

/-! ## Configuration store and write handlers (src/config.cpp, src/ble.cpp) -/

/-- The persisted settings relevant to the claims, as held by the NVS-backed
Config collaborator: the target address blob, its display name, and the two
idle timeouts. -/
structure ConfigState where
  bt_address : Option (List Nat)
  bt_address_name : Option (List Nat)
  conn_timeout : Nat
  disconn_timeout : Nat
deriving DecidableEq, Repr

def setBtAddress (cfg : ConfigState) (v : Option (List Nat)) : ConfigState :=
  { cfg with bt_address := v }

def setBtAddressName (cfg : ConfigState) (v : Option (List Nat)) : ConfigState :=
  { cfg with bt_address_name := v }

def setConnectedIdleTimeout (cfg : ConfigState) (v : Nat) : ConfigState :=
  { cfg with conn_timeout := v }

def setDisconnectedIdleTimeout (cfg : ConfigState) (v : Nat) : ConfigState :=
  { cfg with disconn_timeout := v }

/-- The Config Target Address `onWrite` handler (ble.cpp:582): an empty
payload clears both the address and the name; a payload shorter than six
bytes is logged and ignored; otherwise the first six bytes become the address
and the remainder the name. -/
def onBtAddrWrite (cfg : ConfigState) (data : List Nat) : ConfigState :=
  if data.length = 0 then
    setBtAddressName (setBtAddress cfg none) none
  else if data.length < 6 then cfg
  else
    setBtAddressName (setBtAddress cfg (some (data.take 6))) (some (data.drop 6))

/-- The Connected Idle Timeout `onWrite` handler (ble.cpp:646): payloads that
are not exactly four bytes are logged and ignored; otherwise the little-endian
value is stored. -/
def onConnIdleWrite (cfg : ConfigState) (data : List Nat) : ConfigState :=
  if data.length ≠ 4 then cfg
  else setConnectedIdleTimeout cfg
    (le32 (data.getD 0 0) (data.getD 1 0) (data.getD 2 0) (data.getD 3 0))

/-- The Disconnected Idle Timeout `onWrite` handler (ble.cpp:692), same shape
but storing the disconnected timeout. -/
def onDisconnIdleWrite (cfg : ConfigState) (data : List Nat) : ConfigState :=
  if data.length ≠ 4 then cfg
  else setDisconnectedIdleTimeout cfg
    (le32 (data.getD 0 0) (data.getD 1 0) (data.getD 2 0) (data.getD 3 0))

/-! ## GATT characteristic UUIDs (src/ble.h and the create calls in ble.cpp) -/

def X1_GATT_UUID_CONFIG_CON_IDLE : String := "0000200a-7858-48fb-b797-8613e960da6a"

def X1_GATT_UUID_CONFIG_DISCON_IDLE : String := "0000200b-7858-48fb-b797-8613e960da6a"

/-- The UUID passed to createCharacteristic by
`createConfigConnectedIdleTimeoutCharacteristic` (ble.cpp:663). -/
def connectedIdleTimeoutCharUuid : String := X1_GATT_UUID_CONFIG_CON_IDLE

/-- The UUID passed to createCharacteristic by
`createConfigDisconnectedIdleTimeoutCharacteristic` (ble.cpp:709); the source
passes X1_GATT_UUID_CONFIG_CON_IDLE there, not the DISCON constant. -/
def disconnectedIdleTimeoutCharUuid : String := X1_GATT_UUID_CONFIG_CON_IDLE

/-- The session state right after a successful Start that declared size sz. -/
def otaStarted (sz : Nat) : OtaState :=
  { image_size := sz, bytes_written := 0, sha_ctx := [], ota_partition := some 0 }

/-- The session state after Start declaring sz followed by the chunks cs, when
no chunk overflowed. -/
def otaLoaded (sz : Nat) (cs : List (List Nat)) : OtaState :=
  { image_size := sz, bytes_written := sumLen cs, sha_ctx := cs.flatten, ota_partition := some 0 }

/-- Session invariant of the OTA engine: while a session is active the bytes
written never exceed the declared image size. -/
def OtaInv (st : OtaState) : Prop := st.image_size ≠ 0 → st.bytes_written ≤ st.image_size

/-- Reachable-state invariant of bluetooth.cpp: a live connect task implies
scanning has been permanently disabled, since connect clears can_scan before
spawning the task and nothing ever sets can_scan again. -/
def BtInv (st : BtState) : Prop := st.can_scan = true → st.connect_task = false


/-! ## Helper lemmas for the OTA engine -/

theorem sumLen_nil : sumLen [] = 0 := rfl

theorem sumLen_cons (c : List Nat) (cs : List (List Nat)) :
    sumLen (c :: cs) = c.length + sumLen cs := by
  simp [sumLen]

theorem sumLen_eq_length_flatten (cs : List (List Nat)) :
    sumLen cs = cs.flatten.length := by
  simp [sumLen, List.length_flatten]

theorem otaSignatureOk_iff (h s : List Nat) : otaSignatureOk h s = true ↔ s = h := by
  simp [otaSignatureOk, otaGenuineSignature]

theorem runOta_append (xs ys : List (List Nat)) : ∀ st : OtaState,
    runOta st (xs ++ ys)
      = ((runOta (runOta st xs).1 ys).1, (runOta st xs).2 ++ (runOta (runOta st xs).1 ys).2) := by
  induction xs with
  | nil => intro st; simp [runOta]
  | cons d xs ih => intro st; simp [runOta, ih]

theorem otaWrite_start (st : OtaState) (b0 b1 b2 b3 : Nat) :
    otaWrite st (startMsg b0 b1 b2 b3)
      = ({ image_size := le32 b0 b1 b2 b3, bytes_written := 0, sha_ctx := [],
           ota_partition := some 0 }, []) := by
  simp [otaWrite, startMsg, onOtaStart, espOtaGetNextUpdatePartition, List.getD]

theorem otaWrite_chunk_dead (st : OtaState) (c : List Nat) (h : st.image_size = 0) :
    otaWrite st (chunkMsg c) = (st, []) := by
  simp [otaWrite, chunkMsg, onOtaChunk, h]

theorem otaWrite_finish_dead (st : OtaState) (sig : List Nat) (h : st.image_size = 0) :
    otaWrite st (finishMsg sig) = (st, []) := by
  simp [otaWrite, finishMsg, onOtaFinish, h]

theorem runOta_chunks_dead (cs : List (List Nat)) : ∀ st : OtaState, st.image_size = 0 →
    runOta st (cs.map chunkMsg) = (st, []) := by
  induction cs with
  | nil => intro st _; simp [runOta]
  | cons c cs ih =>
    intro st h
    simp [runOta, otaWrite_chunk_dead st c h, ih st h]

theorem otaWrite_chunk_ok (st : OtaState) (c : List Nat) (h1 : st.image_size ≠ 0)
    (h2 : st.bytes_written + c.length ≤ st.image_size) :
    otaWrite st (chunkMsg c)
      = ({ st with bytes_written := st.bytes_written + c.length,
                   sha_ctx := st.sha_ctx ++ c }, []) := by
  by_cases hc : c.length = 0
  · have hnil : c = [] := List.length_eq_zero.mp hc
    subst hnil
    simp [otaWrite, chunkMsg, onOtaChunk, h1]
  · simp [otaWrite, chunkMsg, onOtaChunk, h1, hc, otaDigestUpdate, Nat.not_lt.mpr h2]

theorem otaWrite_chunk_overflow (st : OtaState) (c : List Nat) (h1 : st.image_size ≠ 0)
    (h2 : st.bytes_written ≤ st.image_size)
    (h3 : st.image_size < st.bytes_written + c.length) :
    otaWrite st (chunkMsg c)
      = ({ st with image_size := 0, sha_ctx := [] },
         [OtaEvent.notifyFail, OtaEvent.abortFlash]) := by
  have hc : c.length ≠ 0 := by omega
  simp [otaWrite, chunkMsg, onOtaChunk, h1, hc, h3]

theorem runOta_chunks_ok (cs : List (List Nat)) : ∀ st : OtaState, st.image_size ≠ 0 →
    st.bytes_written + sumLen cs ≤ st.image_size →
    runOta st (cs.map chunkMsg)
      = ({ st with bytes_written := st.bytes_written + sumLen cs,
                   sha_ctx := st.sha_ctx ++ cs.flatten }, []) := by
  induction cs with
  | nil => intro st h1 h2; simp [runOta, sumLen]
  | cons c cs ih =>
    intro st h1 h2
    rw [sumLen_cons] at h2
    have hstep := otaWrite_chunk_ok st c h1 (by omega)
    have hrest := ih { st with bytes_written := st.bytes_written + c.length,
                               sha_ctx := st.sha_ctx ++ c } h1 (by dsimp only; omega)
    simp only [List.map_cons, runOta, hstep, hrest, List.nil_append, sumLen_cons,
      List.flatten_cons, Prod.mk.injEq, OtaState.mk.injEq, List.append_assoc,
      and_true, true_and]
    omega

theorem runOta_chunks_overflow (cs : List (List Nat)) : ∀ st : OtaState, st.image_size ≠ 0 →
    st.bytes_written ≤ st.image_size →
    st.image_size < st.bytes_written + sumLen cs →
    (runOta st (cs.map chunkMsg)).1.image_size = 0
      ∧ (runOta st (cs.map chunkMsg)).2 = [OtaEvent.notifyFail, OtaEvent.abortFlash] := by
  induction cs with
  | nil => intro st h1 h2 h3; rw [sumLen_nil] at h3; omega
  | cons c cs ih =>
    intro st h1 h2 h3
    rw [sumLen_cons] at h3
    by_cases hov : st.image_size < st.bytes_written + c.length
    · have hstep := otaWrite_chunk_overflow st c h1 h2 hov
      have hdead := runOta_chunks_dead cs { st with image_size := 0, sha_ctx := [] } rfl
      simp [runOta, hstep, hdead]
    · have hstep := otaWrite_chunk_ok st c h1 (by omega)
      have hrest := ih { st with bytes_written := st.bytes_written + c.length,
                                 sha_ctx := st.sha_ctx ++ c } h1 (by dsimp only; omega)
        (by dsimp only; omega)
      simp [runOta, hstep]
      exact hrest

theorem otaWrite_finish_ok (st : OtaState) (sig : List Nat) (h1 : st.image_size ≠ 0)
    (h2 : st.bytes_written = st.image_size) (h3 : sig = st.sha_ctx) :
    otaWrite st (finishMsg sig)
      = (st, [OtaEvent.bootSwitch (st.ota_partition.getD 0), OtaEvent.notifyOk,
              OtaEvent.restart]) := by
  simp [otaWrite, finishMsg, onOtaFinish, h1, h2, otaSignatureOk, otaGenuineSignature,
        otaDigestFinish, h3]

theorem otaWrite_finish_badsig (st : OtaState) (sig : List Nat) (h1 : st.image_size ≠ 0)
    (h2 : st.bytes_written = st.image_size) (h3 : sig ≠ st.sha_ctx) :
    otaWrite st (finishMsg sig)
      = ({ st with image_size := 0 }, [OtaEvent.notifyFail, OtaEvent.abortFlash]) := by
  simp [otaWrite, finishMsg, onOtaFinish, h1, h2, otaSignatureOk, otaGenuineSignature,
        otaDigestFinish, h3]

theorem otaWrite_finish_mismatch (st : OtaState) (sig : List Nat) (h1 : st.image_size ≠ 0)
    (h2 : st.bytes_written ≠ st.image_size) :
    otaWrite st (finishMsg sig)
      = ({ st with image_size := 0, sha_ctx := [] },
         [OtaEvent.notifyFail, OtaEvent.abortFlash]) := by
  simp [otaWrite, finishMsg, onOtaFinish, h1, h2]

theorem getD_set_self : ∀ (l : List Nat) (i v : Nat), i < l.length → (l.set i v).getD i 0 = v
  | [], i, v, h => absurd h (by simp)
  | _ :: _, 0, _, _ => rfl
  | _ :: l, i + 1, v, h => getD_set_self l i v (by simpa using h)

theorem xor_flip_ne (x k : Nat) : x ^^^ (1 <<< k) ≠ x := by
  intro h
  have h0 : (1 : Nat) <<< k ≠ 0 := by
    simp [Nat.shiftLeft_eq]
  have h1 : x ^^^ (x ^^^ (1 <<< k)) = 1 <<< k := by
    rw [← Nat.xor_assoc, Nat.xor_self, Nat.zero_xor]
  rw [h, Nat.xor_self] at h1
  exact h0 h1.symm

theorem flipBit_ne (l : List Nat) (i k : Nat) (h : i < l.length) : flipBit l i k ≠ l := by
  intro he
  have h1 : (flipBit l i k).getD i 0 = l.getD i 0 ^^^ (1 <<< k) :=
    getD_set_self l i _ h
  rw [he] at h1
  exact xor_flip_ne (l.getD i 0) k h1.symm

theorem otaWrite_start_started (st : OtaState) (b0 b1 b2 b3 : Nat) :
    otaWrite st (startMsg b0 b1 b2 b3) = (otaStarted (le32 b0 b1 b2 b3), []) :=
  otaWrite_start st b0 b1 b2 b3

/-- Events of a full Start / chunks / Finish stream decompose into the chunk
phase events followed by the finish event, with the post-Start session state
made explicit. -/
theorem otaRunEvents_stream (b0 b1 b2 b3 : Nat) (cs : List (List Nat)) (sig : List Nat) :
    otaRunEvents (otaStream b0 b1 b2 b3 cs sig)
      = (runOta (otaStarted (le32 b0 b1 b2 b3)) (cs.map chunkMsg)).2
        ++ (otaWrite (runOta (otaStarted (le32 b0 b1 b2 b3)) (cs.map chunkMsg)).1
              (finishMsg sig)).2 := by
  simp [otaRunEvents, otaStream, runOta, otaWrite_start_started, runOta_append]

/-- Characterization of a full Start / chunks / Finish stream run from the
idle engine, for a nonzero declared size: the success notification and the
boot-partition switch happen exactly when the chunk bytes total the declared
size and the signature verifies over the digest of those bytes. -/
theorem otaStream_success_iff (b0 b1 b2 b3 : Nat) (cs : List (List Nat)) (sig : List Nat)
    (hsz : 0 < le32 b0 b1 b2 b3) :
    (OtaEvent.notifyOk ∈ otaRunEvents (otaStream b0 b1 b2 b3 cs sig)
        ↔ sumLen cs = le32 b0 b1 b2 b3
            ∧ otaSignatureOk (otaDigestFinish cs.flatten) sig = true)
      ∧ (OtaEvent.bootSwitch 0 ∈ otaRunEvents (otaStream b0 b1 b2 b3 cs sig)
        ↔ sumLen cs = le32 b0 b1 b2 b3
            ∧ otaSignatureOk (otaDigestFinish cs.flatten) sig = true) := by
  have hAne : (otaStarted (le32 b0 b1 b2 b3)).image_size ≠ 0 := by
    simp [otaStarted]; omega
  rw [otaRunEvents_stream]
  by_cases hle : sumLen cs ≤ le32 b0 b1 b2 b3
  · have hchunks : runOta (otaStarted (le32 b0 b1 b2 b3)) (cs.map chunkMsg)
        = (otaLoaded (le32 b0 b1 b2 b3) cs, []) := by
      rw [runOta_chunks_ok cs _ hAne (by simp [otaStarted]; omega)]
      simp [otaStarted, otaLoaded]
    rw [hchunks]
    by_cases heq : sumLen cs = le32 b0 b1 b2 b3
    · by_cases hs : sig = cs.flatten
      · rw [otaWrite_finish_ok _ sig (by simp [otaLoaded]; omega)
          (by simp [otaLoaded]; omega) (by simp [otaLoaded]; exact hs)]
        simp [heq, otaSignatureOk, otaGenuineSignature, otaDigestFinish, hs, otaLoaded]
      · rw [otaWrite_finish_badsig _ sig (by simp [otaLoaded]; omega)
          (by simp [otaLoaded]; omega) (by simp [otaLoaded]; exact hs)]
        simp [otaSignatureOk, otaGenuineSignature, otaDigestFinish, hs]
    · rw [otaWrite_finish_mismatch _ sig (by simp [otaLoaded]; omega)
        (by simp [otaLoaded]; omega)]
      simp [heq]
  · have hchunks := runOta_chunks_overflow cs _ hAne (by simp [otaStarted])
      (by simp [otaStarted]; omega)
    rw [otaWrite_finish_dead _ sig hchunks.1, hchunks.2]
    have hne : sumLen cs ≠ le32 b0 b1 b2 b3 := by omega
    simp [hne]

theorem sumLen_of_flatten_flip (cs cs2 : List (List Nat)) (i k : Nat)
    (h : cs2.flatten = flipBit cs.flatten i k) : sumLen cs2 = sumLen cs := by
  rw [sumLen_eq_length_flatten, sumLen_eq_length_flatten, h, flipBit, List.length_set]

/-- Claim C1 (amended to streams whose Start declares a nonzero size): the
Finish operation succeeds, notifying success and switching the boot
partition, exactly when the bytes written equal the declared size and the
signature verifies over the digest of the chunk bytes in order; a single
bit-flip in the image bytes or in the signature makes Finish fail, with no
partition switch. -/
theorem ota_finish_success_iff_signature :
    (∀ b0 b1 b2 b3 : Nat, ∀ cs : List (List Nat), ∀ sig : List Nat,
        0 < le32 b0 b1 b2 b3 →
        ((OtaEvent.notifyOk ∈ otaRunEvents (otaStream b0 b1 b2 b3 cs sig)
            ↔ sumLen cs = le32 b0 b1 b2 b3
                ∧ otaSignatureOk (otaDigestFinish cs.flatten) sig = true)
          ∧ (OtaEvent.bootSwitch 0 ∈ otaRunEvents (otaStream b0 b1 b2 b3 cs sig)
            ↔ sumLen cs = le32 b0 b1 b2 b3
                ∧ otaSignatureOk (otaDigestFinish cs.flatten) sig = true)))
  ∧ (∀ b0 b1 b2 b3 : Nat, ∀ cs cs2 : List (List Nat), ∀ sig : List Nat, ∀ i k : Nat,
        0 < le32 b0 b1 b2 b3 →
        sumLen cs = le32 b0 b1 b2 b3 →
        otaSignatureOk (otaDigestFinish cs.flatten) sig = true →
        i < cs.flatten.length →
        cs2.flatten = flipBit cs.flatten i k →
        OtaEvent.notifyOk ∉ otaRunEvents (otaStream b0 b1 b2 b3 cs2 sig)
          ∧ OtaEvent.bootSwitch 0 ∉ otaRunEvents (otaStream b0 b1 b2 b3 cs2 sig))
  ∧ (∀ b0 b1 b2 b3 : Nat, ∀ cs : List (List Nat), ∀ sig : List Nat, ∀ i k : Nat,
        0 < le32 b0 b1 b2 b3 →
        sumLen cs = le32 b0 b1 b2 b3 →
        otaSignatureOk (otaDigestFinish cs.flatten) sig = true →
        i < sig.length →
        OtaEvent.notifyOk ∉ otaRunEvents (otaStream b0 b1 b2 b3 cs (flipBit sig i k))
          ∧ OtaEvent.bootSwitch 0 ∉ otaRunEvents (otaStream b0 b1 b2 b3 cs (flipBit sig i k))) := by
  refine ⟨fun b0 b1 b2 b3 cs sig hsz => otaStream_success_iff b0 b1 b2 b3 cs sig hsz, ?_, ?_⟩
  · intro b0 b1 b2 b3 cs cs2 sig i k hsz hlen hok hi hflip
    have hiff := otaStream_success_iff b0 b1 b2 b3 cs2 sig hsz
    have hsigeq : sig = cs.flatten := by
      rw [otaSignatureOk_iff] at hok
      simpa [otaDigestFinish] using hok
    have hbad : otaSignatureOk (otaDigestFinish cs2.flatten) sig = false := by
      rw [hflip, hsigeq]
      have hne := flipBit_ne cs.flatten i k hi
      simp [otaSignatureOk, otaGenuineSignature, otaDigestFinish]
      exact fun he => absurd he.symm hne
    constructor
    · intro hmem
      have := (hiff.1.mp hmem).2
      rw [hbad] at this
      exact Bool.false_ne_true this
    · intro hmem
      have := (hiff.2.mp hmem).2
      rw [hbad] at this
      exact Bool.false_ne_true this
  · intro b0 b1 b2 b3 cs sig i k hsz hlen hok hi
    have hiff := otaStream_success_iff b0 b1 b2 b3 cs (flipBit sig i k) hsz
    have hsigeq : sig = cs.flatten := by
      rw [otaSignatureOk_iff] at hok
      simpa [otaDigestFinish] using hok
    have hbad : otaSignatureOk (otaDigestFinish cs.flatten) (flipBit sig i k) = false := by
      have hne : flipBit sig i k ≠ cs.flatten := by
        rw [← hsigeq]
        exact flipBit_ne sig i k hi
      simp [otaSignatureOk, otaGenuineSignature, otaDigestFinish]
      exact hne
    constructor
    · intro hmem
      have := (hiff.1.mp hmem).2
      rw [hbad] at this
      exact Bool.false_ne_true this
    · intro hmem
      have := (hiff.2.mp hmem).2
      rw [hbad] at this
      exact Bool.false_ne_true this

/-- Counterexample to claim C1 as stated, at the stream consisting of a Start
declaring size 0 followed directly by a Finish carrying the genuine signature
of the empty image: bytes_written (0) equals the declared size (0) and the
signature verifies, yet Finish does not succeed — the code treats
image_size 0 as the no-session sentinel, so the Finish is dropped and neither
a success notification nor a partition switch happens. -/
theorem ota_finish_zero_size_counterexample :
    le32 0 0 0 0 = 0
    ∧ sumLen ([] : List (List Nat)) = le32 0 0 0 0
    ∧ otaSignatureOk (otaDigestFinish (List.flatten ([] : List (List Nat))))
        (otaGenuineSignature []) = true
    ∧ OtaEvent.notifyOk ∉ otaRunEvents (otaStream 0 0 0 0 [] (otaGenuineSignature []))
    ∧ (∀ p : Nat, OtaEvent.bootSwitch p ∉ otaRunEvents (otaStream 0 0 0 0 [] (otaGenuineSignature [])))
    ∧ otaRunEvents (otaStream 0 0 0 0 [] (otaGenuineSignature [])) = [] := by
  refine ⟨rfl, rfl, rfl, by decide, ?_, by decide⟩
  intro p
  rw [show otaRunEvents (otaStream 0 0 0 0 [] (otaGenuineSignature [])) = [] from by decide]
  simp

theorem ota_finish_success_iff_signature_witness :
    (OtaEvent.notifyOk ∈ otaRunEvents (otaStream 1 0 0 0 [[42]] [42]))
    ∧ (OtaEvent.notifyOk ∉ otaRunEvents (otaStream 1 0 0 0 [[43]] [42]))
    ∧ (OtaEvent.notifyOk ∉ otaRunEvents (otaStream 1 0 0 0 [[42]] [43])) := by
  refine ⟨?_, ?_, ?_⟩
  · exact ((ota_finish_success_iff_signature.1 1 0 0 0 [[42]] [42] (by decide)).1).mpr (by decide)
  · exact (ota_finish_success_iff_signature.2.1 1 0 0 0 [[42]] [[43]] [42] 0 0 (by decide)
      (by decide) (by decide) (by decide) (by decide)).1
  · exact (ota_finish_success_iff_signature.2.2 1 0 0 0 [[42]] [42] 0 0 (by decide)
      (by decide) (by decide) (by decide)).1

theorem otaWrite_inv : ∀ (d : List Nat) (st : OtaState), OtaInv st → OtaInv (otaWrite st d).1 := by
  intro d st h
  match d with
  | [] => simpa [otaWrite] using h
  | tag :: rest =>
    simp only [otaWrite]
    split_ifs with h1 h2 h3
    · simp only [onOtaStart]
      split_ifs with g1 g2
      · exact h
      · exact h
      · simp only [espOtaGetNextUpdatePartition, OtaInv]
        intro _
        exact Nat.zero_le _
    · simp only [onOtaChunk]
      split_ifs with g1 g2 g3
      · exact h
      · exact h
      · intro hne
        simp at hne
      · intro _
        dsimp only
        omega
    · simp only [onOtaFinish]
      split_ifs with g1 g2 g3
      · exact h
      · intro hne
        simp at hne
      · exact h
      · intro hne
        simp at hne
    · exact h

theorem runOta_inv : ∀ (msgs : List (List Nat)) (st : OtaState),
    OtaInv st → OtaInv (runOta st msgs).1 := by
  intro msgs
  induction msgs with
  | nil => intro st h; simpa [runOta] using h
  | cons d rest ih =>
    intro st h
    simp only [runOta]
    exact ih _ (otaWrite_inv d st h)

/-- Claim C2: bytes_written never exceeds the declared size during a session,
an overflowing chunk aborts the session (failure notified, flash handle
aborted) and the concrete stream Start(10), Chunk(6), Chunk(6) is accepted
through the first chunk and rejected at the second with no partition switch. -/
theorem ota_chunk_never_overflows :
    (∀ msgs : List (List Nat), OtaInv (runOta otaInit msgs).1)
  ∧ (∀ st : OtaState, ∀ c : List Nat,
        st.image_size ≠ 0 → st.bytes_written ≤ st.image_size →
        st.image_size < st.bytes_written + c.length →
        otaWrite st (chunkMsg c)
          = ({ st with image_size := 0, sha_ctx := [] },
             [OtaEvent.notifyFail, OtaEvent.abortFlash]))
  ∧ otaRunEvents [startMsg 10 0 0 0, chunkMsg (List.replicate 6 7)] = []
  ∧ otaRunEvents [startMsg 10 0 0 0, chunkMsg (List.replicate 6 7), chunkMsg (List.replicate 6 7)]
      = [OtaEvent.notifyFail, OtaEvent.abortFlash]
  ∧ (∀ p : Nat, OtaEvent.bootSwitch p
      ∉ otaRunEvents [startMsg 10 0 0 0, chunkMsg (List.replicate 6 7),
          chunkMsg (List.replicate 6 7)]) := by
  refine ⟨?_, ?_, by decide, by decide, ?_⟩
  · intro msgs
    exact runOta_inv msgs otaInit (by intro hne; simp [otaInit] at hne)
  · intro st c h1 h2 h3
    exact otaWrite_chunk_overflow st c h1 h2 h3
  · intro p
    rw [show otaRunEvents [startMsg 10 0 0 0, chunkMsg (List.replicate 6 7),
        chunkMsg (List.replicate 6 7)] = [OtaEvent.notifyFail, OtaEvent.abortFlash] from by decide]
    simp

theorem ota_chunk_never_overflows_witness :
    OtaInv (runOta otaInit [startMsg 10 0 0 0, chunkMsg (List.replicate 6 7)]).1
    ∧ otaWrite { image_size := 10, bytes_written := 6, sha_ctx := List.replicate 6 7, ota_partition := some 0 } (chunkMsg (List.replicate 6 7))
        = ({ image_size := 0, bytes_written := 6, sha_ctx := [], ota_partition := some 0 },
           [OtaEvent.notifyFail, OtaEvent.abortFlash]) := by
  constructor
  · exact ota_chunk_never_overflows.1 [startMsg 10 0 0 0, chunkMsg (List.replicate 6 7)]
  · have h := ota_chunk_never_overflows.2.1
      { image_size := 10, bytes_written := 6, sha_ctx := List.replicate 6 7, ota_partition := some 0 }
      (List.replicate 6 7) (by decide) (by decide) (by decide)
    simpa using h

/-- Claim C10: a valid Start arriving while a previous session is still
mid-transfer is not rejected — with no event at all (no failure notification,
no abort of the previous flash handle) the engine silently begins a fresh
session: partition reselected, bytes_written reset to 0, digest accumulator
reinitialized. -/
theorem ota_start_midsession_restarts :
    ∀ st : OtaState, ∀ b0 b1 b2 b3 : Nat,
      st.image_size ≠ 0 → st.bytes_written < st.image_size →
      otaWrite st (startMsg b0 b1 b2 b3) = (otaStarted (le32 b0 b1 b2 b3), []) := by
  intro st b0 b1 b2 b3 _ _
  exact otaWrite_start_started st b0 b1 b2 b3

theorem ota_start_midsession_restarts_witness :
    otaWrite { image_size := 10, bytes_written := 4, sha_ctx := [9, 9, 9, 9], ota_partition := some 0 } (startMsg 10 0 0 0) = (otaStarted 10, []) := by
  have h := ota_start_midsession_restarts
    { image_size := 10, bytes_written := 4, sha_ctx := [9, 9, 9, 9], ota_partition := some 0 }
    10 0 0 0 (by decide) (by decide)
  rw [h]
  rw [show le32 10 0 0 0 = 10 from by decide]

/-! ## Helper lemmas for the Bluetooth Classic bridge -/

theorem btStep_can_scan_false (op : BtOp) (st : BtState) (h : st.can_scan = false) :
    (btStep st op).can_scan = false := by
  cases op <;>
    simp [btStep, btScan, btCancelScan, btConnect, btDisconnect, h] <;>
    split_ifs <;> simp [h]

theorem btRun_can_scan_false (ops : List BtOp) : ∀ st : BtState, st.can_scan = false →
    (btRun st ops).can_scan = false := by
  induction ops with
  | nil => intro st h; simpa [btRun] using h
  | cons op rest ih =>
    intro st h
    simp only [btRun]
    exact ih _ (btStep_can_scan_false op st h)

theorem btRun_append (xs ys : List BtOp) : ∀ st : BtState,
    btRun st (xs ++ ys) = btRun (btRun st xs) ys := by
  induction xs with
  | nil => intro st; simp [btRun]
  | cons op rest ih => intro st; simp only [List.cons_append, btRun]; exact ih _

theorem btConnect_can_scan (st : BtState) : (btConnect st).can_scan = false := by
  simp [btConnect, btCancelScan]
  split_ifs <;> simp

theorem btStep_inv (op : BtOp) (st : BtState) (h : BtInv st) : BtInv (btStep st op) := by
  cases op <;>
    simp [BtInv, btStep, btScan, btCancelScan, btConnect, btDisconnect] at h ⊢ <;>
    split_ifs <;> simp_all

theorem btRun_inv (ops : List BtOp) : ∀ st : BtState, BtInv st → BtInv (btRun st ops) := by
  induction ops with
  | nil => intro st h; simpa [btRun] using h
  | cons op rest ih =>
    intro st h
    simp only [btRun]
    exact ih _ (btStep_inv op st h)

/-- Claim C4: once connect() has been invoked, every later scan() call
returns false for the rest of the process lifetime — connect clears can_scan,
no operation ever sets it back, and scan fails whenever can_scan is false. -/
theorem bt_scan_false_after_connect :
    (∀ st : BtState, (btConnect st).can_scan = false)
  ∧ (∀ st : BtState, ∀ ops : List BtOp, st.can_scan = false → (btRun st ops).can_scan = false)
  ∧ (∀ ops1 ops2 : List BtOp,
      (btScan (btRun btInit (ops1 ++ BtOp.connect :: ops2))).2 = false) := by
  refine ⟨btConnect_can_scan, fun st ops h => btRun_can_scan_false ops st h, ?_⟩
  intro ops1 ops2
  have h1 : (btRun btInit (ops1 ++ BtOp.connect :: ops2)).can_scan = false := by
    rw [btRun_append]
    have h2 : (btStep (btRun btInit ops1) BtOp.connect).can_scan = false :=
      btConnect_can_scan _
    exact btRun_can_scan_false ops2 _ h2
  simp [btScan, h1]

theorem bt_scan_false_after_connect_witness :
    (btRun { can_scan := false, scan_task := false, connect_task := true } [BtOp.scan]).can_scan = false
    ∧ (btScan (btRun btInit [BtOp.scan, BtOp.connect, BtOp.cancel])).2 = false := by
  constructor
  · exact bt_scan_false_after_connect.2.1
      { can_scan := false, scan_task := false, connect_task := true } [BtOp.scan] rfl
  · exact bt_scan_false_after_connect.2.2 [BtOp.scan] [BtOp.cancel]

/-- Claim C5 (amended): scan() fails immediately exactly when scanning is
permanently disabled, which covers every state in which a connect task is
live; a scan already in progress does not make the call fail — the running
scan is canceled and a fresh one is started, the call returning true. -/
theorem bt_scan_failure_conditions :
    (∀ st : BtState, (btScan st).2 = false ↔ st.can_scan = false)
  ∧ (∀ ops : List BtOp, (btRun btInit ops).connect_task = true →
      (btScan (btRun btInit ops)).2 = false)
  ∧ (∀ st : BtState, st.can_scan = true → st.scan_task = true →
      (btScan st).2 = true ∧ (btScan st).1.scan_task = true) := by
  refine ⟨?_, ?_, ?_⟩
  · intro st
    cases hc : st.can_scan <;> simp [btScan, hc]
  · intro ops hct
    have hinv : BtInv (btRun btInit ops) :=
      btRun_inv ops btInit (by intro _; rfl)
    have hcs : (btRun btInit ops).can_scan = false := by
      cases hval : (btRun btInit ops).can_scan
      · rfl
      · rw [hinv hval] at hct
        exact absurd hct (by simp)
    simp [btScan, hcs]
  · intro st h1 h2
    simp [btScan, h1, btCancelScan, h2]

/-- Counterexample to claim C5 as stated: after one successful scan() call the
scan is still active (the scan task is live and can_scan still true), yet a
second scan() call returns true rather than failing — the code cancels the
running scan and starts a new one. -/
theorem bt_scan_active_counterexample :
    (btRun btInit [BtOp.scan]).scan_task = true
    ∧ (btRun btInit [BtOp.scan]).can_scan = true
    ∧ (btScan (btRun btInit [BtOp.scan])).2 = true := by
  decide

theorem bt_scan_failure_conditions_witness :
    ((btScan { can_scan := false, scan_task := false, connect_task := false }).2 = false)
    ∧ (btScan (btRun btInit [BtOp.connect])).2 = false
    ∧ (btScan { can_scan := true, scan_task := true, connect_task := false }).2 = true := by
  refine ⟨?_, ?_, ?_⟩
  · exact (bt_scan_failure_conditions.1
      { can_scan := false, scan_task := false, connect_task := false }).mpr rfl
  · exact bt_scan_failure_conditions.2.1 [BtOp.connect] (by decide)
  · exact (bt_scan_failure_conditions.2.2
      { can_scan := true, scan_task := true, connect_task := false } rfl rfl).1

/-! ## Helper lemmas for the idle-timeout sweep -/

theorem runSweeps_no_trigger (timeout now : Nat) :
    ∀ ts : List Nat, (∀ u ∈ ts, now ≤ u ∧ u < now + timeout) →
    runSweeps timeout { connected := true, last_activity_time := now } ts
      = ({ connected := true, last_activity_time := now }, 0) := by
  intro ts
  induction ts with
  | nil => intro _; simp [runSweeps]
  | cons t rest ih =>
    intro hall
    have ht := hall t (by simp)
    have hstep : sweepStep timeout t { connected := true, last_activity_time := now }
        = ({ connected := true, last_activity_time := now }, false) := by
      simp only [sweepStep]
      split_ifs with h1 h2 <;> first | rfl | (exact absurd trivial h1) | (exfalso; omega)
    simp only [runSweeps, hstep]
    rw [ih (fun u hu => hall u (by simp [hu]))]
    simp

/-- Claim C6 (amended to timeouts of at least two seconds): with
connected_idle_timeout = T, a connected session idle for at least T is
force-disconnected by the sweep, exactly once — the sweep resets the activity
clock to the disconnect time, so no further sweep strictly inside the next T
seconds triggers again — and an activity event one second before the deadline
prevents the disconnect at the original deadline. -/
theorem idle_timeout_single_disconnect :
    (∀ timeout now : Nat, ∀ st : SessionClock,
        st.connected = true → st.last_activity_time ≤ now →
        st.last_activity_time + timeout ≤ now →
        sweepStep timeout now st = ({ st with last_activity_time := now }, true))
  ∧ (∀ timeout now now2 : Nat, now ≤ now2 → now2 < now + timeout →
        sweepStep timeout now2 { connected := true, last_activity_time := now }
          = ({ connected := true, last_activity_time := now }, false))
  ∧ (∀ timeout t : Nat, ∀ st : SessionClock, ∀ ts : List Nat,
        st.connected = true → st.last_activity_time ≤ t →
        st.last_activity_time + timeout ≤ t →
        (∀ u ∈ ts, t ≤ u ∧ u < t + timeout) →
        (runSweeps timeout st (t :: ts)).2 = 1)
  ∧ (∀ timeout t0 : Nat, 2 ≤ timeout →
        sweepStep timeout (t0 + timeout)
            (activityEvent (t0 + (timeout - 1)) { connected := true, last_activity_time := t0 })
          = (activityEvent (t0 + (timeout - 1)) { connected := true, last_activity_time := t0 },
             false)) := by
  refine ⟨?_, ?_, ?_, ?_⟩
  · intro timeout now st hc hle hdl
    simp only [sweepStep, if_pos hc]
    rw [if_pos (by omega)]
  · intro timeout now now2 h1 h2
    simp only [sweepStep]
    split_ifs with g1 g2 <;> first | rfl | (exact absurd trivial g1) | (exfalso; omega)
  · intro timeout t st ts hc hle hdl hall
    have hstep : sweepStep timeout t st = ({ st with last_activity_time := t }, true) := by
      simp only [sweepStep, if_pos hc]
      rw [if_pos (by omega)]
    simp only [runSweeps, hstep]
    have hrest := runSweeps_no_trigger timeout t ts hall
    have hshape : ({ st with last_activity_time := t } : SessionClock)
        = { connected := true, last_activity_time := t } := by
      simp [hc]
    rw [hshape, hrest]
    simp
  · intro timeout t0 h2
    simp only [activityEvent, sweepStep]
    split_ifs with g1 g2 <;> first | rfl | (exact absurd trivial g1) | (exfalso; omega)

/-- Counterexample to claim C6 as stated, at T = 1: the claim promises that an
activity event at time T - 1 prevents the disconnect at the original deadline
T, but with T = 1 the activity lands at time 0 and the sweep at time 1 sees an
idle time of 1 ≥ T, so the forced disconnect fires anyway. -/
theorem idle_timeout_counterexample :
    sweepStep 1 1 (activityEvent 0 { connected := true, last_activity_time := 0 })
      = ({ connected := true, last_activity_time := 1 }, true) := by
  decide

theorem idle_timeout_single_disconnect_witness :
    sweepStep 30 60 { connected := true, last_activity_time := 10 }
        = ({ connected := true, last_activity_time := 60 }, true)
    ∧ sweepStep 30 75 { connected := true, last_activity_time := 60 }
        = ({ connected := true, last_activity_time := 60 }, false)
    ∧ (runSweeps 30 { connected := true, last_activity_time := 10 } [60, 75, 89]).2 = 1
    ∧ sweepStep 30 30 (activityEvent 29 { connected := true, last_activity_time := 0 })
        = (activityEvent 29 { connected := true, last_activity_time := 0 }, false) := by
  refine ⟨?_, ?_, ?_, ?_⟩
  · have h := idle_timeout_single_disconnect.1 30 60
      { connected := true, last_activity_time := 10 } rfl (by decide) (by decide)
    simpa using h
  · exact idle_timeout_single_disconnect.2.1 30 60 75 (by decide) (by decide)
  · exact idle_timeout_single_disconnect.2.2.1 30 60
      { connected := true, last_activity_time := 10 } [75, 89] rfl (by decide) (by decide)
      (by decide)
  · exact idle_timeout_single_disconnect.2.2.2 30 0 (by decide)

/-! ## BLE session lifecycle theorems -/

/-- Claim C7: across any sequence of connect/disconnect events at most one
session is active at a time, and a disconnect clears the peer identity,
forces every registered subscription descriptor off and restarts advertising,
with the descriptor reset happening while advertising is still stopped. -/
theorem ble_single_session_and_disconnect_reset :
    (∀ descs : List ClientConfigDesc, ∀ evs : List SrvEv,
        sessionCount (srvRun (srvInit descs) evs) ≤ 1)
  ∧ (∀ st : BleSrvState, (srvOnDisconnect st).connected_client = none)
  ∧ (∀ st : BleSrvState, ∀ d : ClientConfigDesc,
        d ∈ (srvOnDisconnect st).client_config_descriptors →
        d.notifications = false ∧ d.indications = false)
  ∧ (∀ st : BleSrvState, (srvOnDisconnect st).advertising = true)
  ∧ (∀ st : BleSrvState,
        (srvClearSubscriptions { st with connected_client := none }).advertising
          = st.advertising) := by
  refine ⟨?_, ?_, ?_, ?_, ?_⟩
  · intro descs evs
    simp only [sessionCount]
    split_ifs <;> omega
  · intro st
    simp [srvOnDisconnect, srvClearSubscriptions]
  · intro st d hd
    simp only [srvOnDisconnect, srvClearSubscriptions, List.mem_map] at hd
    obtain ⟨_, _, hdef⟩ := hd
    rw [← hdef]
    simp [descOff]
  · intro st
    simp [srvOnDisconnect]
  · intro st
    simp [srvClearSubscriptions]

theorem ble_single_session_and_disconnect_reset_witness :
    sessionCount (srvRun (srvInit [descOff]) [SrvEv.connect [1, 2, 3, 4, 5, 6]]) ≤ 1
    ∧ (descOff.notifications = false ∧ descOff.indications = false) := by
  constructor
  · exact ble_single_session_and_disconnect_reset.1 [descOff] [SrvEv.connect [1, 2, 3, 4, 5, 6]]
  · exact ble_single_session_and_disconnect_reset.2.2.1
      { connected_client := some [1, 2, 3, 4, 5, 6],
        client_config_descriptors := [{ notifications := true, indications := true }],
        advertising := false } descOff (by simp [srvOnDisconnect, srvClearSubscriptions])

/-! ## Inbound framer theorems -/

theorem feedBytes_append (xs : List Nat) : ∀ (buf ys : List Nat),
    feedBytes buf (xs ++ ys)
      = ((feedBytes (feedBytes buf xs).1 ys).1,
         (feedBytes buf xs).2 ++ (feedBytes (feedBytes buf xs).1 ys).2) := by
  induction xs with
  | nil => intro buf ys; simp [feedBytes]
  | cons b xs ih =>
    intro buf ys
    by_cases hb : b = 10
    · simp only [List.cons_append, feedBytes, if_pos hb, List.append_eq]
      rw [ih [] ys]
    · simp only [List.cons_append, feedBytes, if_neg hb, List.append_eq]
      rw [ih (buf ++ [b]) ys]

theorem feedBytes_frames_terminated : ∀ (data buf f : List Nat),
    f ∈ (feedBytes buf data).2 → f.getLast? = some 10 := by
  intro data
  induction data with
  | nil => intro buf f hf; simp [feedBytes] at hf
  | cons b rest ih =>
    intro buf f hf
    by_cases hb : b = 10
    · simp only [feedBytes, if_pos hb] at hf
      rcases List.mem_cons.mp hf with hhead | htail
      · subst hhead
        rw [hb]
        simp
      · exact ih [] f htail
    · simp only [feedBytes, if_neg hb] at hf
      exact ih (buf ++ [b]) f hf

/-- Claim C8: the inbound framer appends each byte to its buffer and emits
the accumulated bytes, terminator 0x0A included, as one frame whenever the
terminator is seen; partial frames persist across calls (feeding a stream in
two calls emits the same frames as feeding it in one); and the concrete
stream 01 02 0A 03 0A yields exactly the frames [01 02 0A] and [03 0A]. -/
theorem framer_emits_terminated_frames :
    (∀ buf xs ys : List Nat,
        feedBytes buf (xs ++ ys)
          = ((feedBytes (feedBytes buf xs).1 ys).1,
             (feedBytes buf xs).2 ++ (feedBytes (feedBytes buf xs).1 ys).2))
  ∧ (∀ buf data f : List Nat, f ∈ (feedBytes buf data).2 → f.getLast? = some 10)
  ∧ feedBytes [] [1, 2, 10, 3, 10] = ([], [[1, 2, 10], [3, 10]]) := by
  exact ⟨fun buf xs ys => feedBytes_append xs buf ys,
         fun buf data f hf => feedBytes_frames_terminated data buf f hf,
         by decide⟩

theorem framer_emits_terminated_frames_witness :
    feedBytes [] ([1, 2, 10] ++ [3, 10])
      = ((feedBytes (feedBytes [] [1, 2, 10]).1 [3, 10]).1,
         (feedBytes [] [1, 2, 10]).2 ++ (feedBytes (feedBytes [] [1, 2, 10]).1 [3, 10]).2)
    ∧ ([1, 2, 10] : List Nat).getLast? = some 10 := by
  constructor
  · exact framer_emits_terminated_frames.1 [] [1, 2, 10] [3, 10]
  · exact framer_emits_terminated_frames.2.1 [] [1, 2, 10, 3, 10] [1, 2, 10] (by decide)

/-! ## Config Target Address theorems -/

/-- Claim C9: a zero-length write to the Config Target Address characteristic
clears both the stored address and its name; a six-byte write stores those
bytes as the address with an empty name; writes of length one through five
are ignored with no state change. -/
theorem config_bt_addr_write_cases :
    (∀ cfg : ConfigState, ∀ data : List Nat, data.length = 0 →
        onBtAddrWrite cfg data = { cfg with bt_address := none, bt_address_name := none })
  ∧ (∀ cfg : ConfigState, ∀ data : List Nat, data.length = 6 →
        onBtAddrWrite cfg data
          = { cfg with bt_address := some data, bt_address_name := some [] })
  ∧ (∀ cfg : ConfigState, ∀ data : List Nat, 1 ≤ data.length → data.length ≤ 5 →
        onBtAddrWrite cfg data = cfg) := by
  refine ⟨?_, ?_, ?_⟩
  · intro cfg data h
    simp [onBtAddrWrite, h, setBtAddress, setBtAddressName]
  · intro cfg data h
    have h1 : data.length ≠ 0 := by omega
    have h2 : ¬ data.length < 6 := by omega
    simp only [onBtAddrWrite, if_neg h1, if_neg h2, setBtAddress, setBtAddressName]
    rw [List.take_of_length_le (by omega), List.drop_eq_nil_of_le (by omega)]
  · intro cfg data h1 h2
    have g1 : data.length ≠ 0 := by omega
    have g2 : data.length < 6 := by omega
    simp [onBtAddrWrite, g1, g2]

theorem config_bt_addr_write_cases_witness :
    onBtAddrWrite { bt_address := some [1, 2, 3, 4, 5, 6], bt_address_name := some [65], conn_timeout := 0, disconn_timeout := 0 } []
        = { bt_address := none, bt_address_name := none, conn_timeout := 0, disconn_timeout := 0 }
    ∧ onBtAddrWrite { bt_address := none, bt_address_name := none, conn_timeout := 0, disconn_timeout := 0 } [1, 2, 3, 4, 5, 6]
        = { bt_address := some [1, 2, 3, 4, 5, 6], bt_address_name := some [], conn_timeout := 0, disconn_timeout := 0 }
    ∧ onBtAddrWrite { bt_address := none, bt_address_name := none, conn_timeout := 0, disconn_timeout := 0 } [1, 2, 3]
        = { bt_address := none, bt_address_name := none, conn_timeout := 0, disconn_timeout := 0 } := by
  refine ⟨?_, ?_, ?_⟩
  · have h := config_bt_addr_write_cases.1
      { bt_address := some [1, 2, 3, 4, 5, 6], bt_address_name := some [65], conn_timeout := 0, disconn_timeout := 0 } [] rfl
    simpa using h
  · have h := config_bt_addr_write_cases.2.1
      { bt_address := none, bt_address_name := none, conn_timeout := 0, disconn_timeout := 0 } [1, 2, 3, 4, 5, 6] rfl
    simpa using h
  · exact config_bt_addr_write_cases.2.2
      { bt_address := none, bt_address_name := none, conn_timeout := 0, disconn_timeout := 0 } [1, 2, 3] (by decide) (by decide)

/-! ## Idle-timeout characteristic UUIDs -/

/-- Claim C3, settled against the source: the two idle-timeout settings have
independent write handlers, but the characteristics are NOT created with
distinct UUIDs — ble.cpp passes X1_GATT_UUID_CONFIG_CON_IDLE for both, even
though ble.h declares a separate X1_GATT_UUID_CONFIG_DISCON_IDLE that the
creation code never uses. -/
theorem idle_timeout_uuid_collision :
    connectedIdleTimeoutCharUuid = X1_GATT_UUID_CONFIG_CON_IDLE
    ∧ disconnectedIdleTimeoutCharUuid = X1_GATT_UUID_CONFIG_CON_IDLE
    ∧ disconnectedIdleTimeoutCharUuid = connectedIdleTimeoutCharUuid
    ∧ disconnectedIdleTimeoutCharUuid ≠ X1_GATT_UUID_CONFIG_DISCON_IDLE
    ∧ (∀ cfg : ConfigState, ∀ data : List Nat,
        (onConnIdleWrite cfg data).disconn_timeout = cfg.disconn_timeout)
    ∧ (∀ cfg : ConfigState, ∀ data : List Nat,
        (onDisconnIdleWrite cfg data).conn_timeout = cfg.conn_timeout) := by
  refine ⟨rfl, rfl, rfl, by decide, ?_, ?_⟩
  · intro cfg data
    simp only [onConnIdleWrite, setConnectedIdleTimeout]
    split_ifs <;> rfl
  · intro cfg data
    simp only [onDisconnIdleWrite, setDisconnectedIdleTimeout]
    split_ifs <;> rfl
